import Mathlib

/-!
# Alert channel accessor of `pkg/alerts/channels.go`

A shallow embedding of `ListChannels`, `GetChannel`, `CreateChannel` and
`DeleteChannel`.

* The HTTP client (`alerts.client`) is an external collaborator: its three
  calls are fields of `Client`, and every statement quantifies over them.
* `ListChannels` starts a goroutine that drains `respChan` while the calling
  goroutine runs `GetPages`.  Both goroutines are embedded as step functions on
  one explicit `State` (program counters, channel buffer, `WaitGroup` counter,
  the `alertChannels` slice), and `run` interleaves them under an arbitrary
  schedule.  Statements about `ListChannels` hold for every schedule.
* A `*Channel` is embedded as `Option (Channel κ)`: `some ch` stands for a
  pointer to `ch`, `none` for the nil pointer.  `[]*Channel` is a list of such
  entries, so a slice may hold nil entries (a JSON `null` decodes to one), and
  reading a field through a nil entry is a run-time panic.
* Go run-time panics are the `Result.panic` outcome.
-/

namespace Alerts

/-! ## Data model -/

/-- Go `error` values that reach the accessor: the `NotFound` error of
`pkg/errors`, or any other error value, each with its message. -/
inductive Error where
  | NotFound (err : String)
  | Other (err : String)
  deriving DecidableEq

/-- The `ChannelLinks` record (field `PolicyIDs []int` of the test file). -/
structure ChannelLinks where
  PolicyIDs : List Int
  deriving DecidableEq

/-- The `Channel` record.  Its declaration is not in `channels.go`; the fields
are the ones the test file and the JSON envelopes use.  `κ` is the type of the
configuration payload, which the accessor passes through untouched. -/
structure Channel (κ : Type) where
  ID : Int
  Name : String
  Typ : String
  Configuration : κ
  Links : ChannelLinks
  deriving DecidableEq

/-- Envelope `alertChannelsResponse`: one decoded page, its `[]*Channel` under
`"channels"`; an entry is `none` when the pointer is nil. -/
structure alertChannelsResponse (κ : Type) where
  Channels : List (Option (Channel κ))
  deriving DecidableEq

/-- Envelope `alertChannelResponse`: a single channel under `"channel"`. -/
structure alertChannelResponse (κ : Type) where
  Channel : Channel κ
  deriving DecidableEq

/-- Envelope `alertChannelRequestBody`: the submitted channel under `"channel"`. -/
structure alertChannelRequestBody (κ : Type) where
  Channel : Channel κ
  deriving DecidableEq

/-- Query parameters of a request; the accessor always passes `nil`. -/
abbrev QueryParams := List (String × String)

/-- Outcome of a Go function returning `(value, error)`: either it returns the
pair (`none` is Go's `nil`), or it panics with a run-time error. -/
inductive Result (α : Type) where
  | ret (val : Option α) (err : Option Error)
  | panic (msg : String)
  deriving DecidableEq

/-- The transport, as seen from `channels.go` (its code is not among the sources).
* `GetPages path params` gives the pages it pushes on the result sink, in the
  order it pushes them, and the error it then returns.  It only sends on the
  sink, it never closes it, and every item it pushes is a
  `*alertChannelsResponse` whose content is fixed once pushed.
* `Post path params body` gives the response envelope it decoded into `&resp`
  and the error it returns.
* `Delete path params` likewise for the single-channel envelope. -/
structure Client (κ : Type) where
  GetPages : String → Option QueryParams → List (alertChannelsResponse κ) × Option Error
  Post : String → Option QueryParams → alertChannelRequestBody κ →
    alertChannelsResponse κ × Option Error
  Delete : String → Option QueryParams → alertChannelResponse κ × Option Error

/-- A request issued to the transport. -/
inductive Call (κ : Type) where
  | Post (path : String) (params : Option QueryParams) (body : alertChannelRequestBody κ)
  | Delete (path : String) (params : Option QueryParams)
  deriving DecidableEq

variable {κ : Type}

/-- Concatenation of the channels of a sequence of pages, page by page. -/
def pagesChannels : List (alertChannelsResponse κ) → List (Option (Channel κ))
  | [] => []
  | p :: ps => p.Channels ++ pagesChannels ps

/-! ## `ListChannels`: the two goroutines -/

/-- The two goroutines of one `ListChannels` call. -/
inductive Tid where
  | main
  | consumer
  deriving DecidableEq

/-- The goroutine that is not `t`. -/
def Tid.other : Tid → Tid
  | .main => .consumer
  | .consumer => .main

/-- Program counter of the calling goroutine, after `wg.Add(1)` and `go func()`.
* `getPages pending err`: inside `GetPages` (line 31); `pending` are the pages
  the transport has still to push, `err` is what it will return;
* `close`: at `close(respChan)` (line 38);
* `wait`: at `wg.Wait()` (line 40);
* `print`: at `fmt.Printf` and the final `return` (lines 41-43);
* `done r`: the call is over with outcome `r`. -/
inductive MainPC (κ : Type) where
  | getPages (pending : List (alertChannelsResponse κ)) (err : Option Error)
  | close
  | wait
  | print
  | done (r : Result (List (Option (Channel κ))))
  deriving DecidableEq

/-- Program counter of the consumer goroutine (lines 20-27).
* `recv`: at `range respChan` (line 21), waiting for an item or for the close;
* `got v`: holds item `v`, about to append `v.Channels` (lines 22-24);
* `exit`: left the loop, at `wg.Done()` (line 26);
* `finished`: the goroutine is over. -/
inductive ConsPC (κ : Type) where
  | recv
  | got (v : alertChannelsResponse κ)
  | exit
  | finished
  deriving DecidableEq

/-- Buffer size of `respChan` (`make(chan interface{}, 1)`). -/
def respChanCap : Nat := 1

/-- Shared state of one `ListChannels` call.  `closes` counts the executions of
`close(respChan)`. -/
structure State (κ : Type) where
  mpc : MainPC κ
  cpc : ConsPC κ
  respChan : List (alertChannelsResponse κ)
  closed : Bool
  closes : Nat
  wg : Nat
  alertChannels : List (Option (Channel κ))
  stdout : String
  deriving DecidableEq

/-- State right after `go func() {...}()`: empty slice, empty open channel,
`WaitGroup` counter 1, the transport about to deliver `pages` and return `err`. -/
def State.init (pages : List (alertChannelsResponse κ)) (err : Option Error) : State κ :=
  { mpc := .getPages pages err, cpc := .recv, respChan := [], closed := false,
    closes := 0, wg := 1, alertChannels := [], stdout := "" }

/-- One step of the calling goroutine; `none` when it is blocked or over. -/
def stepMain (s : State κ) : Option (State κ) :=
  match s.mpc with
  | .getPages (p :: rest) err =>
      if s.closed then
        some { s with mpc := .done (.panic "send on closed channel") }
      else if s.respChan.length < respChanCap then
        some { s with respChan := s.respChan ++ [p], mpc := .getPages rest err }
      else none
  | .getPages [] (some e) => some { s with mpc := .done (.ret none (some e)) }
  | .getPages [] none => some { s with mpc := .close }
  | .close =>
      if s.closed then
        some { s with mpc := .done (.panic "close of closed channel") }
      else some { s with closed := true, closes := s.closes + 1, mpc := .wait }
  | .wait => if s.wg = 0 then some { s with mpc := .print } else none
  | .print =>
      some { s with
        stdout := s.stdout ++ "Number: " ++ toString s.alertChannels.length,
        mpc := .done (.ret (some s.alertChannels) none) }
  | .done _ => none

/-- One step of the consumer goroutine; `none` when it is blocked or over. -/
def stepConsumer (s : State κ) : Option (State κ) :=
  match s.cpc with
  | .recv =>
      match s.respChan with
      | x :: rest => some { s with respChan := rest, cpc := .got x }
      | [] => if s.closed then some { s with cpc := .exit } else none
  | .got v => some { s with alertChannels := s.alertChannels ++ v.Channels, cpc := .recv }
  | .exit =>
      if s.wg = 0 then
        some { s with mpc := .done (.panic "sync: negative WaitGroup counter"),
                      cpc := .finished }
      else some { s with wg := s.wg - 1, cpc := .finished }
  | .finished => none

/-- One step of goroutine `t`. -/
def step (t : Tid) (s : State κ) : Option (State κ) :=
  match t with
  | .main => stepMain s
  | .consumer => stepConsumer s

/-- Whether the call is over (returned or panicked). -/
def State.isDone (s : State κ) : Bool :=
  match s.mpc with
  | .done _ => true
  | _ => false

/-- Runs the two goroutines until the call is over.  At step `i` the schedule
`σ` names the goroutine to run; when that one is blocked the other one runs.
`none` when both are blocked (deadlock) or the fuel is used up. -/
def run (σ : Nat → Tid) : Nat → Nat → State κ → Option (State κ)
  | 0, _, _ => none
  | fuel + 1, i, s =>
      if s.isDone then some s
      else
        match step (σ i) s with
        | some s' => run σ fuel (i + 1) s'
        | none =>
            match step (σ i).other s with
            | some s' => run σ fuel (i + 1) s'
            | none => none

/-- Number of scheduling rounds granted to a call whose transport pushes `k` pages. -/
def listFuel (k : Nat) : Nat := 3 * k + 7

/-- State in which `ListChannels` is over, under schedule `σ`. -/
def ListChannelsFinal (σ : Nat → Tid) (c : Client κ) : Option (State κ) :=
  let r := c.GetPages "/alerts_channels.json" none
  run σ (listFuel r.1.length) 0 (State.init r.1 r.2)

/-- Outcome stored in a finished state. -/
def State.result (s : State κ) : Option (Result (List (Option (Channel κ)))) :=
  match s.mpc with
  | .done r => some r
  | _ => none

/-- `ListChannels` under schedule `σ`: its outcome, or `none` if it never ends. -/
def ListChannels (σ : Nat → Tid) (c : Client κ) :
    Option (Result (List (Option (Channel κ)))) :=
  (ListChannelsFinal σ c).bind State.result

/-! ## `GetChannel`, `CreateChannel`, `DeleteChannel` -/

/-- Modelled from the spec: `errors.NewNotFoundf` of `pkg/errors`, which is not
among the sources; it builds the `NotFound` error carrying the message, given
here already formatted. -/
def NewNotFoundf (msg : String) : Error := .NotFound msg

/-- The scan loop of `GetChannel` (lines 53-58).  Reading `channel.ID` through
a nil entry (line 54) is Go's nil-pointer panic. -/
def scanChannels (id : Int) : List (Option (Channel κ)) → Result (Channel κ)
  | [] => .ret none (some (NewNotFoundf ("no channel found for id " ++ toString id)))
  | none :: _ => .panic "runtime error: invalid memory address or nil pointer dereference"
  | some channel :: rest =>
      if channel.ID = id then .ret (some channel) none else scanChannels id rest

/-- `GetChannel` under schedule `σ` for the inner `ListChannels`. -/
def GetChannel (σ : Nat → Tid) (c : Client κ) (id : Int) : Option (Result (Channel κ)) :=
  (ListChannels σ c).map fun r =>
    match r with
    | .panic msg => .panic msg
    | .ret _ (some err) => .ret none (some err)
    | .ret none none => scanChannels id []
    | .ret (some channels) none => scanChannels id channels

/-- `CreateChannel`: its outcome and the requests it issued.  Element 0 of
`resp.Channels` is returned as it is, nil or not (line 78). -/
def CreateChannel (c : Client κ) (channel : Channel κ) : Result (Channel κ) × List (Call κ) :=
  let reqBody : alertChannelRequestBody κ := { Channel := channel }
  let (resp, err) := c.Post "/alerts_channels.json" none reqBody
  let calls := [Call.Post "/alerts_channels.json" none reqBody]
  match err with
  | some e => (.ret none (some e), calls)
  | none =>
      match resp.Channels with
      | first :: _ => (.ret first none, calls)
      | [] => (.panic "runtime error: index out of range [0] with length 0", calls)

/-- `DeleteChannel`: its outcome and the requests it issued. -/
def DeleteChannel (c : Client κ) (id : Int) : Result (Channel κ) × List (Call κ) :=
  let url := "/alerts_channels/" ++ toString id ++ ".json"
  let (resp, err) := c.Delete url none
  let calls := [Call.Delete url none]
  match err with
  | some e => (.ret none (some e), calls)
  | none => (.ret (some resp.Channel) none, calls)

/-- Value of a string of decimal digits, most significant digit first. -/
def decimalValue (cs : List Char) : Nat :=
  cs.foldl (fun a ch => 10 * a + (ch.toNat - 48)) 0

/-! ## Invariant of the two goroutines -/

/-- Channels of the item the consumer holds and has not appended yet. -/
def ConsPC.held : ConsPC κ → List (Option (Channel κ))
  | .got v => v.Channels
  | _ => []

/-- Whether the consumer is still inside its `range` loop. -/
def ConsPC.inLoop : ConsPC κ → Bool
  | .recv => true
  | .got _ => true
  | _ => false

/-- Invariant of a call whose transport delivers `pages` and returns `err`. -/
def Inv (pages : List (alertChannelsResponse κ)) (err : Option Error) (s : State κ) : Prop :=
  match s.mpc with
  | .getPages l e =>
      e = err ∧ s.closed = false ∧ s.closes = 0 ∧ s.wg = 1 ∧ s.respChan.length ≤ 1 ∧
      s.stdout = "" ∧ s.cpc.inLoop = true ∧
      s.alertChannels ++ (s.cpc.held ++ (pagesChannels s.respChan ++ pagesChannels l))
        = pagesChannels pages
  | .close =>
      err = none ∧ s.closed = false ∧ s.closes = 0 ∧ s.wg = 1 ∧ s.stdout = "" ∧
      s.cpc.inLoop = true ∧
      s.alertChannels ++ (s.cpc.held ++ pagesChannels s.respChan) = pagesChannels pages
  | .wait =>
      err = none ∧ s.closed = true ∧ s.closes = 1 ∧ s.stdout = "" ∧
      s.alertChannels ++ (s.cpc.held ++ pagesChannels s.respChan) = pagesChannels pages ∧
      (match s.cpc with
        | .recv => s.wg = 1
        | .got _ => s.wg = 1
        | .exit => s.wg = 1 ∧ s.respChan = []
        | .finished => s.wg = 0 ∧ s.respChan = [])
  | .print =>
      err = none ∧ s.closed = true ∧ s.closes = 1 ∧ s.stdout = "" ∧ s.cpc = .finished ∧
      s.wg = 0 ∧ s.respChan = [] ∧ s.alertChannels = pagesChannels pages
  | .done r =>
      match err with
      | some e =>
          r = .ret none (some e) ∧ s.closed = false ∧ s.closes = 0 ∧ s.wg = 1 ∧
          s.stdout = "" ∧ s.cpc.inLoop = true
      | none =>
          r = .ret (some (pagesChannels pages)) none ∧ s.closed = true ∧ s.closes = 1 ∧
          s.cpc = .finished ∧ s.wg = 0 ∧ s.respChan = [] ∧
          s.alertChannels = pagesChannels pages ∧
          s.stdout = "Number: " ++ toString (pagesChannels pages).length

/-- Upper bound on the number of steps the two goroutines can still take. -/
def State.mu (s : State κ) : Nat :=
  let pend := match s.mpc with
    | .getPages l _ => l.length
    | _ => 0
  let n := s.respChan.length + pend
  (match s.mpc with
    | .getPages l _ => l.length + 4
    | .close => 3
    | .wait => 2
    | .print => 1
    | .done _ => 0) +
  (match s.cpc with
    | .recv => 2 * n + 2
    | .got _ => 2 * n + 3
    | .exit => 1
    | .finished => 0)

/-- States reachable by interleaving the two goroutines in any way. -/
inductive Reach : State κ → State κ → Prop where
  | refl (s : State κ) : Reach s s
  | tail {s s' s'' : State κ} (t : Tid) : Reach s s' → step t s' = some s'' → Reach s s''

/-! ## Sample transports and schedules -/

/-- An e-mail channel with the given identifier and name. -/
def sampleChannel (id : Int) (name : String) : Channel Unit :=
  { ID := id, Name := name, Typ := "email", Configuration := (), Links := { PolicyIDs := [] } }

/-- A non-nil pointer to `sampleChannel id name`. -/
def samplePtr (id : Int) (name : String) : Option (Channel Unit) :=
  some (sampleChannel id name)

/-- A transport that pushes `pages` and returns `err` from `GetPages`, answers a
`Post` with `posted` and a `Delete` with the channel 7 named `"x"`. -/
def sampleClient (pages : List (List (Option (Channel Unit)))) (err : Option Error)
    (posted : List (Option (Channel Unit))) : Client Unit :=
  { GetPages := fun _ _ => (pages.map fun l => { Channels := l }, err),
    Post := fun _ _ _ => ({ Channels := posted }, none),
    Delete := fun _ _ => ({ Channel := sampleChannel 7 "x" }, none) }

/-- A transport all of whose calls fail with `e`. -/
def failingClient (e : Error) : Client Unit :=
  { GetPages := fun _ _ => ([], some e),
    Post := fun _ _ _ => ({ Channels := [] }, some e),
    Delete := fun _ _ => ({ Channel := sampleChannel 0 "" }, some e) }

/-- The schedule that alternates between the consumer and the caller. -/
def alternate (i : Nat) : Tid := if i % 2 = 0 then .consumer else .main

/-- The schedule that always prefers the caller. -/
def mainFirst (_ : Nat) : Tid := .main

/-! ## Lemmas -/

@[simp] theorem pagesChannels_nil : pagesChannels ([] : List (alertChannelsResponse κ)) = [] := rfl

@[simp] theorem pagesChannels_cons (p : alertChannelsResponse κ) (ps : List (alertChannelsResponse κ)) :
    pagesChannels (p :: ps) = p.Channels ++ pagesChannels ps := rfl

@[simp] theorem pagesChannels_append (ps qs : List (alertChannelsResponse κ)) :
    pagesChannels (ps ++ qs) = pagesChannels ps ++ pagesChannels qs := by
  induction ps with
  | nil => rfl
  | cons p ps ih => simp [ih]

theorem pagesChannels_eq_flatten (ps : List (alertChannelsResponse κ)) :
    pagesChannels ps = (ps.map fun p => p.Channels).flatten := by
  induction ps with
  | nil => rfl
  | cons p ps ih => simp [ih]

theorem inv_init (pages : List (alertChannelsResponse κ)) (err : Option Error) :
    Inv pages err (State.init pages err) := by
  simp [Inv, State.init, ConsPC.inLoop, ConsPC.held]

theorem inv_stepMain {pages : List (alertChannelsResponse κ)} {err : Option Error}
    {s s' : State κ} (h : Inv pages err s) (hs : stepMain s = some s') : Inv pages err s' := by
  obtain ⟨mpc, cpc, buf, closed, closes, wg, acc, out⟩ := s
  cases mpc with
  | getPages l e =>
    simp only [Inv] at h
    obtain ⟨rfl, rfl, rfl, rfl, h5, rfl, h7, h8⟩ := h
    cases l with
    | nil =>
      cases e with
      | none =>
        simp only [stepMain] at hs
        cases hs
        simpa [Inv, h7] using h8
      | some e =>
        simp only [stepMain] at hs
        cases hs
        simp [Inv, h7]
    | cons p rest =>
      simp only [stepMain, Bool.false_eq_true, if_false, respChanCap] at hs
      split at hs
      · cases hs
        have hb : buf = [] := List.length_eq_zero.mp (by omega)
        subst hb
        simpa [Inv, h7] using h8
      · cases hs
  | close =>
    simp only [stepMain, Inv] at hs h
    obtain ⟨rfl, rfl, rfl, rfl, rfl, h6, h7⟩ := h
    simp only [Bool.false_eq_true, if_false] at hs
    cases hs
    cases cpc <;> simp_all [Inv, ConsPC.inLoop]
  | wait =>
    simp only [stepMain, Inv] at hs h
    obtain ⟨rfl, rfl, rfl, rfl, h5, h6⟩ := h
    split at hs
    · cases hs
      rename_i hwg
      cases cpc with
      | recv => simp at h6; omega
      | got v => simp at h6; omega
      | exit => simp at h6; omega
      | finished =>
        obtain ⟨rfl, rfl⟩ := h6
        simpa [Inv, ConsPC.held] using h5
    · cases hs
  | print =>
    simp only [stepMain, Inv] at hs h
    cases hs
    obtain ⟨rfl, rfl, rfl, rfl, rfl, rfl, rfl, rfl⟩ := h
    simp [Inv]
  | done r => simp [stepMain] at hs

theorem inv_stepConsumer {pages : List (alertChannelsResponse κ)} {err : Option Error}
    {s s' : State κ} (h : Inv pages err s) (hs : stepConsumer s = some s') : Inv pages err s' := by
  obtain ⟨mpc, cpc, buf, closed, closes, wg, acc, out⟩ := s
  cases cpc with
  | recv =>
    cases buf with
    | nil =>
      simp only [stepConsumer] at hs
      split at hs
      · cases hs
        rename_i hc
        subst hc
        cases mpc with
        | getPages l e => simp [Inv] at h
        | close => simp [Inv] at h
        | wait => simpa [Inv, ConsPC.held] using h
        | print => simp [Inv] at h
        | done r => cases err <;> simp [Inv] at h
      · cases hs
    | cons x rest =>
      simp only [stepConsumer] at hs
      cases hs
      cases mpc with
      | getPages l e =>
        simp only [Inv] at h ⊢
        obtain ⟨h1, h2, h3, h4, h5, h6, h7, h8⟩ := h
        refine ⟨h1, h2, h3, h4, ?_, h6, rfl, ?_⟩
        · simp only [List.length_cons] at h5; omega
        · simpa [ConsPC.held] using h8
      | close => simpa [Inv, ConsPC.held, ConsPC.inLoop] using h
      | wait => simpa [Inv, ConsPC.held, ConsPC.inLoop] using h
      | print => simp [Inv] at h
      | done r => cases err <;> simp_all [Inv, ConsPC.inLoop]
  | got v =>
    simp only [stepConsumer] at hs
    cases hs
    cases mpc with
    | getPages l e => simpa [Inv, ConsPC.held, ConsPC.inLoop] using h
    | close => simpa [Inv, ConsPC.held, ConsPC.inLoop] using h
    | wait => simpa [Inv, ConsPC.held, ConsPC.inLoop] using h
    | print => simp [Inv] at h
    | done r => cases err <;> simp_all [Inv, ConsPC.inLoop]
  | exit =>
    cases mpc with
    | getPages l e => simp [Inv, ConsPC.inLoop] at h
    | close => simp [Inv, ConsPC.inLoop] at h
    | wait =>
      simp only [Inv] at h
      obtain ⟨rfl, rfl, rfl, rfl, h5, rfl, rfl⟩ := h
      simp only [stepConsumer] at hs
      simp at hs
      cases hs
      simpa [Inv, ConsPC.held] using h5
    | print => simp [Inv] at h
    | done r => cases err <;> simp [Inv, ConsPC.inLoop] at h
  | finished => simp [stepConsumer] at hs

theorem inv_step {pages : List (alertChannelsResponse κ)} {err : Option Error}
    {t : Tid} {s s' : State κ} (h : Inv pages err s) (hs : step t s = some s') :
    Inv pages err s' := by
  cases t with
  | main => exact inv_stepMain h hs
  | consumer => exact inv_stepConsumer h hs

theorem mu_stepMain {s s' : State κ} (hs : stepMain s = some s') : s'.mu < s.mu := by
  obtain ⟨mpc, cpc, buf, closed, closes, wg, acc, out⟩ := s
  cases mpc with
  | getPages l e =>
    cases l with
    | nil =>
      cases e <;> simp only [stepMain] at hs <;> cases hs <;> cases cpc <;>
        simp [State.mu]
    | cons p rest =>
      simp only [stepMain] at hs
      split at hs
      · cases hs
        cases cpc <;> simp [State.mu] <;> omega
      · split at hs
        · cases hs
          cases cpc <;> simp [State.mu] <;> omega
        · cases hs
  | close =>
    simp only [stepMain] at hs
    split at hs <;> cases hs <;> cases cpc <;> simp [State.mu]
  | wait =>
    simp only [stepMain] at hs
    split at hs
    · cases hs
      cases cpc <;> simp [State.mu]
    · cases hs
  | print =>
    simp only [stepMain] at hs
    cases hs
    cases cpc <;> simp [State.mu]
  | done r => simp [stepMain] at hs

theorem mu_stepConsumer {s s' : State κ} (hs : stepConsumer s = some s') : s'.mu < s.mu := by
  obtain ⟨mpc, cpc, buf, closed, closes, wg, acc, out⟩ := s
  cases cpc with
  | recv =>
    cases buf with
    | nil =>
      simp only [stepConsumer] at hs
      split at hs
      · cases hs
        cases mpc <;> simp [State.mu]
      · cases hs
    | cons x rest =>
      simp only [stepConsumer] at hs
      cases hs
      cases mpc <;> simp [State.mu] <;> omega
  | got v =>
    simp only [stepConsumer] at hs
    cases hs
    cases mpc <;> simp [State.mu]
  | exit =>
    simp only [stepConsumer] at hs
    split at hs <;> cases hs <;> cases mpc <;> simp [State.mu]
  | finished => simp [stepConsumer] at hs

theorem mu_step {t : Tid} {s s' : State κ} (hs : step t s = some s') : s'.mu < s.mu := by
  cases t with
  | main => exact mu_stepMain hs
  | consumer => exact mu_stepConsumer hs

/-- No deadlock: while the call is not over, one of the goroutines can step. -/
theorem progress {pages : List (alertChannelsResponse κ)} {err : Option Error}
    {s : State κ} (h : Inv pages err s) (hd : s.isDone = false) :
    (stepMain s).isSome = true ∨ (stepConsumer s).isSome = true := by
  obtain ⟨mpc, cpc, buf, closed, closes, wg, acc, out⟩ := s
  cases mpc with
  | getPages l e =>
    simp only [Inv] at h
    obtain ⟨rfl, rfl, rfl, rfl, h5, rfl, h7, h8⟩ := h
    cases l with
    | nil => cases e <;> simp [stepMain]
    | cons p rest =>
      cases buf with
      | nil => simp [stepMain, respChanCap]
      | cons x xs =>
        right
        cases cpc <;> simp_all [stepConsumer, ConsPC.inLoop]
  | close =>
    simp only [Inv] at h
    obtain ⟨rfl, rfl, rfl, rfl, rfl, h6, h7⟩ := h
    simp [stepMain]
  | wait =>
    simp only [Inv] at h
    obtain ⟨rfl, rfl, rfl, rfl, h5, h6⟩ := h
    cases cpc with
    | recv => right; cases buf <;> simp [stepConsumer]
    | got v => right; simp [stepConsumer]
    | exit => right; simp [stepConsumer]; split <;> simp
    | finished => left; simp at h6; simp [stepMain, h6.1]
  | print => simp [stepMain]
  | done r => simp [State.isDone] at hd

theorem step_other_isSome {pages : List (alertChannelsResponse κ)} {err : Option Error}
    {s : State κ} (h : Inv pages err s) (hd : s.isDone = false) (t : Tid)
    (ht : step t s = none) : (step t.other s).isSome = true := by
  rcases progress h hd with hp | hp <;> cases t <;> simp_all [step, Tid.other]

/-- With more fuel than `mu`, `run` ends in a finished state that satisfies the invariant. -/
theorem run_spec (σ : Nat → Tid) {pages : List (alertChannelsResponse κ)} {err : Option Error} :
    ∀ (fuel i : Nat) (s : State κ), Inv pages err s → s.mu < fuel →
      ∃ s', run σ fuel i s = some s' ∧ Inv pages err s' ∧ s'.isDone = true := by
  intro fuel
  induction fuel with
  | zero => intro i s _ h; omega
  | succ n ih =>
    intro i s hinv hmu
    cases hd : s.isDone with
    | true => exact ⟨s, by simp [run, hd], hinv, hd⟩
    | false =>
      cases h1 : step (σ i) s with
      | some s1 =>
        have := mu_step h1
        obtain ⟨s', hr, hi, hdone⟩ := ih (i + 1) s1 (inv_step hinv h1) (by omega)
        exact ⟨s', by simp [run, hd, h1, hr], hi, hdone⟩
      | none =>
        have hsome := step_other_isSome hinv hd (σ i) h1
        cases h2 : step (σ i).other s with
        | none => simp [h2] at hsome
        | some s2 =>
          have := mu_step h2
          obtain ⟨s', hr, hi, hdone⟩ := ih (i + 1) s2 (inv_step hinv h2) (by omega)
          exact ⟨s', by simp [run, hd, h1, h2, hr], hi, hdone⟩

theorem mu_init (pages : List (alertChannelsResponse κ)) (err : Option Error) :
    (State.init pages err).mu < listFuel pages.length := by
  simp [State.mu, State.init, listFuel]; omega

/-- Every call of `ListChannels` ends, in a finished state satisfying the invariant. -/
theorem listChannelsFinal_spec (σ : Nat → Tid) (c : Client κ) :
    ∃ s, ListChannelsFinal σ c = some s ∧
      Inv (c.GetPages "/alerts_channels.json" none).1
        (c.GetPages "/alerts_channels.json" none).2 s ∧ s.isDone = true := by
  exact run_spec σ _ 0 _ (inv_init _ _) (mu_init _ _)

theorem inv_reach {pages : List (alertChannelsResponse κ)} {err : Option Error}
    {s s' : State κ} (h : Inv pages err s) (hr : Reach s s') : Inv pages err s' := by
  induction hr with
  | refl => exact h
  | tail t _ hs ih => exact inv_step ih hs

theorem reach_trans {s s' s'' : State κ} (h1 : Reach s s') (h2 : Reach s' s'') : Reach s s'' := by
  induction h2 with
  | refl => exact h1
  | tail t _ hs ih => exact Reach.tail t ih hs

theorem run_reach (σ : Nat → Tid) :
    ∀ (fuel i : Nat) (s s' : State κ), run σ fuel i s = some s' → Reach s s' := by
  intro fuel
  induction fuel with
  | zero => intro i s s' h; simp [run] at h
  | succ n ih =>
    intro i s s' h
    simp only [run] at h
    split at h
    · cases h; exact Reach.refl _
    · split at h
      · rename_i s1 h1
        exact reach_trans (Reach.tail _ (Reach.refl s) h1) (ih _ _ _ h)
      · split at h
        · rename_i s2 h2
          exact reach_trans (Reach.tail _ (Reach.refl s) h2) (ih _ _ _ h)
        · cases h

theorem listChannels_ok (σ : Nat → Tid) (c : Client κ) (pages : List (alertChannelsResponse κ))
    (h : c.GetPages "/alerts_channels.json" none = (pages, none)) :
    ListChannels σ c = some (.ret (some (pagesChannels pages)) none) := by
  obtain ⟨s, hs, hinv, hd⟩ := listChannelsFinal_spec σ c
  rw [h] at hinv
  obtain ⟨mpc, cpc, buf, closed, closes, wg, acc, out⟩ := s
  cases mpc <;> simp [State.isDone] at hd
  simp only [Inv] at hinv
  simp [ListChannels, hs, State.result, hinv.1]

theorem listChannels_err (σ : Nat → Tid) (c : Client κ) (pages : List (alertChannelsResponse κ))
    (e : Error) (h : c.GetPages "/alerts_channels.json" none = (pages, some e)) :
    ListChannels σ c = some (.ret none (some e)) := by
  obtain ⟨s, hs, hinv, hd⟩ := listChannelsFinal_spec σ c
  rw [h] at hinv
  obtain ⟨mpc, cpc, buf, closed, closes, wg, acc, out⟩ := s
  cases mpc <;> simp [State.isDone] at hd
  simp only [Inv] at hinv
  simp [ListChannels, hs, State.result, hinv.1]

/-- The scan passes over non-nil entries with another ID and stops at the first match. -/
theorem scanChannels_found (id : Int) (ch : Channel κ) (post : List (Option (Channel κ)))
    (hch : ch.ID = id) :
    ∀ pre : List (Option (Channel κ)), (∀ x ∈ pre, ∃ y, x = some y ∧ y.ID ≠ id) →
      scanChannels id (pre ++ some ch :: post) = .ret (some ch) none := by
  intro pre
  induction pre with
  | nil => intro _; simp [scanChannels, hch]
  | cons a pre ih =>
    intro h
    obtain ⟨y, rfl, hy⟩ := h a (List.mem_cons_self _ _)
    have h' : ∀ x ∈ pre, ∃ y, x = some y ∧ y.ID ≠ id :=
      fun x hx => h x (List.mem_cons_of_mem _ hx)
    simp [scanChannels, hy, ih h']

theorem scanChannels_nil_entry (id : Int) (post : List (Option (Channel κ))) :
    ∀ pre : List (Option (Channel κ)), (∀ x ∈ pre, ∃ y, x = some y ∧ y.ID ≠ id) →
      scanChannels id (pre ++ none :: post)
        = .panic "runtime error: invalid memory address or nil pointer dereference" := by
  intro pre
  induction pre with
  | nil => intro _; simp [scanChannels]
  | cons a pre ih =>
    intro h
    obtain ⟨y, rfl, hy⟩ := h a (List.mem_cons_self _ _)
    have h' : ∀ x ∈ pre, ∃ y, x = some y ∧ y.ID ≠ id :=
      fun x hx => h x (List.mem_cons_of_mem _ hx)
    simp [scanChannels, hy, ih h']

theorem scanChannels_not_found (id : Int) :
    ∀ L : List (Option (Channel κ)), (∀ x ∈ L, ∃ y, x = some y ∧ y.ID ≠ id) →
      scanChannels id L =
        .ret none (some (.NotFound ("no channel found for id " ++ toString id))) := by
  intro L
  induction L with
  | nil => intro _; rfl
  | cons a L ih =>
    intro h
    obtain ⟨y, rfl, hy⟩ := h a (List.mem_cons_self _ _)
    have h' : ∀ x ∈ L, ∃ y, x = some y ∧ y.ID ≠ id :=
      fun x hx => h x (List.mem_cons_of_mem _ hx)
    simp [scanChannels, hy, ih h']

/-- The three ways a scan can go: a first match, a nil entry first, or neither. -/
theorem scanChannels_cases (id : Int) :
    ∀ L : List (Option (Channel κ)),
      (∃ pre ch post, L = pre ++ some ch :: post ∧
        (∀ x ∈ pre, ∃ y, x = some y ∧ y.ID ≠ id) ∧ ch.ID = id) ∨
      (∃ pre post, L = pre ++ none :: post ∧ (∀ x ∈ pre, ∃ y, x = some y ∧ y.ID ≠ id)) ∨
      (∀ x ∈ L, ∃ y, x = some y ∧ y.ID ≠ id) := by
  intro L
  induction L with
  | nil => right; right; simp
  | cons a L ih =>
    cases a with
    | none => right; left; exact ⟨[], L, rfl, by simp⟩
    | some y =>
      by_cases hy : y.ID = id
      · left; exact ⟨[], y, L, rfl, by simp, hy⟩
      · have hcons : ∀ pre : List (Option (Channel κ)),
            (∀ x ∈ pre, ∃ z, x = some z ∧ z.ID ≠ id) →
            ∀ x ∈ some y :: pre, ∃ z, x = some z ∧ z.ID ≠ id := by
          intro pre hpre x hx
          simp only [List.mem_cons] at hx
          rcases hx with rfl | hx
          · exact ⟨y, rfl, hy⟩
          · exact hpre x hx
        rcases ih with ⟨pre, ch, post, h1, h2, h3⟩ | ⟨pre, post, h1, h2⟩ | h
        · left; exact ⟨some y :: pre, ch, post, by simp [h1], hcons pre h2, h3⟩
        · right; left; exact ⟨some y :: pre, post, by simp [h1], hcons pre h2⟩
        · right; right; exact hcons L h

theorem stepMain_alertChannels {s s' : State κ} (hs : stepMain s = some s') :
    s'.alertChannels = s.alertChannels := by
  obtain ⟨mpc, cpc, buf, closed, closes, wg, acc, out⟩ := s
  cases mpc with
  | getPages l e =>
    cases l with
    | nil => cases e <;> simp only [stepMain] at hs <;> cases hs <;> rfl
    | cons p rest =>
      simp only [stepMain] at hs
      split at hs
      · cases hs; rfl
      · split at hs
        · cases hs; rfl
        · cases hs
  | close =>
    simp only [stepMain] at hs
    split at hs <;> cases hs <;> rfl
  | wait =>
    simp only [stepMain] at hs
    split at hs
    · cases hs; rfl
    · cases hs
  | print =>
    simp only [stepMain] at hs
    cases hs; rfl
  | done r => simp [stepMain] at hs

theorem listChannelsFinal_reach (σ : Nat → Tid) (c : Client κ) (s : State κ)
    (h : ListChannelsFinal σ c = some s) :
    Reach (State.init (c.GetPages "/alerts_channels.json" none).1
      (c.GetPages "/alerts_channels.json" none).2) s :=
  run_reach σ _ _ _ _ h

/-! ### Decimal rendering of integers (`%d`) -/

theorem toDigitsCore_append (b : Nat) :
    ∀ (fuel n : Nat) (ds : List Char),
      Nat.toDigitsCore b fuel n ds = Nat.toDigitsCore b fuel n [] ++ ds := by
  intro fuel
  induction fuel with
  | zero => intro n ds; simp [Nat.toDigitsCore]
  | succ f ih =>
    intro n ds
    simp only [Nat.toDigitsCore]
    split
    · simp
    · rw [ih (n / b) (_ :: ds), ih (n / b) [_]]
      simp

theorem digitChar_value (d : Nat) (h : d < 10) :
    (Nat.digitChar d).toNat - 48 = d ∧ (Nat.digitChar d).isDigit = true := by
  interval_cases d <;> decide

theorem decimalValue_snoc (cs : List Char) (c : Char) :
    decimalValue (cs ++ [c]) = 10 * decimalValue cs + (c.toNat - 48) := by
  simp [decimalValue]

theorem decimalValue_toDigitsCore :
    ∀ (fuel n : Nat), n < fuel →
      decimalValue (Nat.toDigitsCore 10 fuel n []) = n ∧
      ∀ ch ∈ Nat.toDigitsCore 10 fuel n [], ch.isDigit = true := by
  intro fuel
  induction fuel with
  | zero => intro n h; omega
  | succ f ih =>
    intro n h
    have hd := digitChar_value (n % 10) (Nat.mod_lt _ (by decide))
    simp only [Nat.toDigitsCore]
    split
    · rename_i h0
      constructor
      · simp [decimalValue, hd.1]; omega
      · simp [hd.2]
    · rename_i h0
      have hlt : n / 10 < f := by omega
      obtain ⟨ih1, ih2⟩ := ih (n / 10) hlt
      rw [toDigitsCore_append]
      constructor
      · rw [decimalValue_snoc, ih1, hd.1]; omega
      · intro ch hch
        simp only [List.mem_append, List.mem_singleton] at hch
        rcases hch with hch | rfl
        · exact ih2 ch hch
        · exact hd.2

theorem toString_nat_decimal (n : Nat) :
    ∃ ds : List Char, toString n = String.mk ds ∧ decimalValue ds = n ∧
      ∀ ch ∈ ds, ch.isDigit = true := by
  refine ⟨Nat.toDigits 10 n, rfl, ?_⟩
  exact decimalValue_toDigitsCore (n + 1) n (by omega)

theorem toString_int_decimal (id : Int) :
    ∃ ds : List Char, toString id = (if id < 0 then "-" else "") ++ String.mk ds ∧
      decimalValue ds = id.natAbs ∧ ∀ ch ∈ ds, ch.isDigit = true := by
  cases id with
  | ofNat n =>
    obtain ⟨ds, h1, h2, h3⟩ := toString_nat_decimal n
    refine ⟨ds, ?_, by simpa using h2, h3⟩
    have : ¬ (Int.ofNat n < 0) := by simp
    simp only [this, if_false]
    show toString n = _
    rw [h1]; rfl
  | negSucc m =>
    obtain ⟨ds, h1, h2, h3⟩ := toString_nat_decimal (m + 1)
    refine ⟨ds, ?_, by simpa using h2, h3⟩
    have : Int.negSucc m < 0 := Int.negSucc_lt_zero m
    simp only [this, if_true]
    show "-" ++ toString (m + 1) = _
    rw [h1]

/-- C1: whenever `GetPages` pushes the pages `p1, ..., pk` and returns no error,
`ListChannels` returns, under every schedule of its two goroutines, a nil error
and exactly `p1.Channels ++ ... ++ pk.Channels`: page order and the order inside
each page are kept, nothing is dropped, reordered or deduplicated. -/
theorem C1_listChannels_concat (σ : Nat → Tid) (c : Client κ)
    (pages : List (alertChannelsResponse κ))
    (h : c.GetPages "/alerts_channels.json" none = (pages, none)) :
    ListChannels σ c = some (.ret (some (pages.map fun p => p.Channels).flatten) none) := by
  rw [← pagesChannels_eq_flatten]
  exact listChannels_ok σ c pages h

theorem C1_listChannels_concat_witness :
    (sampleClient [[samplePtr 2 "b", samplePtr 1 "a"], [], [none, samplePtr 2 "b"]] none []).GetPages
        "/alerts_channels.json" none
      = ([⟨[samplePtr 2 "b", samplePtr 1 "a"]⟩, ⟨[]⟩, ⟨[none, samplePtr 2 "b"]⟩], none) ∧
    ListChannels alternate
        (sampleClient [[samplePtr 2 "b", samplePtr 1 "a"], [], [none, samplePtr 2 "b"]] none [])
      = some (.ret (some [samplePtr 2 "b", samplePtr 1 "a", none, samplePtr 2 "b"]) none) :=
  ⟨rfl, C1_listChannels_concat alternate _
    [⟨[samplePtr 2 "b", samplePtr 1 "a"]⟩, ⟨[]⟩, ⟨[none, samplePtr 2 "b"]⟩] rfl⟩

/-- C2: whenever `GetPages` returns an error `e`, whatever pages it pushed before,
`ListChannels` returns, under every schedule, the nil collection and exactly `e`. -/
theorem C2_listChannels_error (σ : Nat → Tid) (c : Client κ)
    (pages : List (alertChannelsResponse κ)) (e : Error)
    (h : c.GetPages "/alerts_channels.json" none = (pages, some e)) :
    ListChannels σ c = some (.ret none (some e)) :=
  listChannels_err σ c pages e h

theorem C2_listChannels_error_witness :
    (sampleClient [[samplePtr 1 "a"], [samplePtr 2 "b"]] (some (.Other "page 3 failed")) []).GetPages
        "/alerts_channels.json" none
      = ([⟨[samplePtr 1 "a"]⟩, ⟨[samplePtr 2 "b"]⟩], some (.Other "page 3 failed")) ∧
    ListChannels alternate
        (sampleClient [[samplePtr 1 "a"], [samplePtr 2 "b"]] (some (.Other "page 3 failed")) [])
      = some (.ret none (some (.Other "page 3 failed"))) :=
  ⟨rfl, C2_listChannels_error alternate _ _ _ rfl⟩

/-- C3 (amended): let `L` be the collection a successful `ListChannels`
returns, and call an entry passable when it is non-nil with an ID other than
`id`.
* If `L` is passable entries, then a non-nil channel whose ID is `id`, then
  anything, `GetChannel id` returns that channel, the first with ID `id`, and a
  nil error.
* If every entry of `L` is passable, it returns no channel and the `NotFound`
  error with message `no channel found for id <id>`.
* If `L` is passable entries, then a nil entry, then anything, the scan reads
  `channel.ID` through the nil entry and panics.
* So `GetChannel` returns a nil error exactly when a channel with ID `id`
  occurs in `L` with only passable entries before it; and when `L` has no nil
  entry, exactly when `id` is among the IDs of `L`. -/
theorem C3_getChannel (σ : Nat → Tid) (c : Client κ) (id : Int)
    (L : List (Option (Channel κ)))
    (h : ListChannels σ c = some (.ret (some L) none)) :
    (∀ pre ch post, L = pre ++ some ch :: post →
      (∀ x ∈ pre, ∃ y, x = some y ∧ y.ID ≠ id) → ch.ID = id →
      GetChannel σ c id = some (.ret (some ch) none)) ∧
    ((∀ x ∈ L, ∃ y, x = some y ∧ y.ID ≠ id) →
      GetChannel σ c id =
        some (.ret none (some (.NotFound ("no channel found for id " ++ toString id))))) ∧
    (∀ pre post, L = pre ++ none :: post →
      (∀ x ∈ pre, ∃ y, x = some y ∧ y.ID ≠ id) →
      GetChannel σ c id =
        some (.panic "runtime error: invalid memory address or nil pointer dereference")) ∧
    ((∃ v, GetChannel σ c id = some (.ret v none)) ↔
      ∃ pre ch post, L = pre ++ some ch :: post ∧
        (∀ x ∈ pre, ∃ y, x = some y ∧ y.ID ≠ id) ∧ ch.ID = id) ∧
    ((∀ x ∈ L, x ≠ none) →
      ((∃ v, GetChannel σ c id = some (.ret v none)) ↔
        id ∈ (L.filterMap fun x => x).map fun ch => ch.ID)) := by
  have hg : GetChannel σ c id = some (scanChannels id L) := by simp [GetChannel, h]
  have hiff : (∃ v, GetChannel σ c id = some (.ret v none)) ↔
      ∃ pre ch post, L = pre ++ some ch :: post ∧
        (∀ x ∈ pre, ∃ y, x = some y ∧ y.ID ≠ id) ∧ ch.ID = id := by
    constructor
    · rintro ⟨v, hv⟩
      rcases scanChannels_cases id L with hfound | ⟨pre, post, h1, h2⟩ | hnone
      · exact hfound
      · rw [hg, h1, scanChannels_nil_entry id post pre h2] at hv
        simp at hv
      · rw [hg, scanChannels_not_found id L hnone] at hv
        simp at hv
    · rintro ⟨pre, ch, post, h1, h2, h3⟩
      exact ⟨some ch, by rw [hg, h1, scanChannels_found id ch post h3 pre h2]⟩
  refine ⟨?_, ?_, ?_, hiff, ?_⟩
  · intro pre ch post h1 h2 h3
    rw [hg, h1, scanChannels_found id ch post h3 pre h2]
  · intro hall
    rw [hg, scanChannels_not_found id L hall]
  · intro pre post h1 h2
    rw [hg, h1, scanChannels_nil_entry id post pre h2]
  · intro hnonnil
    rw [hiff]
    constructor
    · rintro ⟨pre, ch, post, h1, -, h3⟩
      simp only [List.mem_map, List.mem_filterMap]
      exact ⟨ch, ⟨some ch, by simp [h1], rfl⟩, h3⟩
    · intro hmem
      rcases scanChannels_cases id L with hfound | ⟨pre, post, h1, -⟩ | hnone
      · exact hfound
      · exact absurd rfl (hnonnil none (by simp [h1]))
      · simp only [List.mem_map, List.mem_filterMap] at hmem
        obtain ⟨ch, ⟨x, hx, hxch⟩, hid⟩ := hmem
        obtain ⟨y, hy, hne⟩ := hnone x hx
        subst hy
        cases hxch
        exact absurd hid hne

theorem C3_getChannel_witness :
    ListChannels alternate
        (sampleClient [[samplePtr 1 "a"], [samplePtr 2 "b", none, samplePtr 2 "c"]] none [])
      = some (.ret (some [samplePtr 1 "a", samplePtr 2 "b", none, samplePtr 2 "c"]) none) ∧
    GetChannel alternate
        (sampleClient [[samplePtr 1 "a"], [samplePtr 2 "b", none, samplePtr 2 "c"]] none []) 2
      = some (.ret (some (sampleChannel 2 "b")) none) ∧
    GetChannel alternate
        (sampleClient [[samplePtr 1 "a"], [samplePtr 2 "b", none, samplePtr 2 "c"]] none []) 5
      = some (.panic "runtime error: invalid memory address or nil pointer dereference") :=
  have h2 := C3_getChannel alternate
    (sampleClient [[samplePtr 1 "a"], [samplePtr 2 "b", none, samplePtr 2 "c"]] none []) 2
    [samplePtr 1 "a", samplePtr 2 "b", none, samplePtr 2 "c"] (by decide)
  ⟨by decide,
   h2.1 [samplePtr 1 "a"] (sampleChannel 2 "b") [none, samplePtr 2 "c"] rfl
     (by intro x hx
         simp only [List.mem_singleton] at hx
         exact ⟨sampleChannel 1 "a", hx, by decide⟩)
     rfl,
   by decide⟩

/-- Counterexample to C3 without the condition on nil entries: `ListChannels`
succeeds with the collection `[nil, channel 1]`, the ID 1 is among the IDs of its channels, and yet
`GetChannel 1` returns nothing, it panics on the nil entry; and on `[nil]`, where
no channel has ID 5, `GetChannel 5` panics instead of returning `NotFound`. -/
theorem C3_getChannel_counterexample :
    (ListChannels alternate (sampleClient [[none, samplePtr 1 "a"]] none [])
        = some (.ret (some [none, samplePtr 1 "a"]) none) ∧
      some (sampleChannel 1 "a") ∈ [none, samplePtr 1 "a"] ∧
      (sampleChannel 1 "a").ID = 1 ∧
      GetChannel alternate (sampleClient [[none, samplePtr 1 "a"]] none []) 1
        = some (.panic "runtime error: invalid memory address or nil pointer dereference") ∧
      ¬ ∃ v, GetChannel alternate (sampleClient [[none, samplePtr 1 "a"]] none []) 1
        = some (.ret v none)) ∧
    (ListChannels alternate (sampleClient [[none]] none []) = some (.ret (some [none]) none) ∧
      (∀ ch : Channel Unit, some ch ∈ [(none : Option (Channel Unit))] → ch.ID ≠ 5) ∧
      GetChannel alternate (sampleClient [[none]] none []) 5
        ≠ some (.ret none (some (.NotFound "no channel found for id 5")))) := by
  refine ⟨⟨by decide, by decide, by decide, by decide, ?_⟩, by decide, ?_, by decide⟩
  · rintro ⟨v, hv⟩
    have hp : GetChannel alternate (sampleClient [[none, samplePtr 1 "a"]] none []) 1
        = some (.panic "runtime error: invalid memory address or nil pointer dereference") := by
      decide
    rw [hp] at hv
    simp at hv
  · intro ch hch
    simp at hch

/-- C4: let `all` be a list of entries whose channels have pairwise distinct
IDs, cut in any way into consecutive pages (empty pages allowed).  A successful
`ListChannels` returns `all` itself: as many entries as `all` has, every ID of
`all` exactly once, and the same collection for every other cut of `all` into
pages and every other schedule. -/
theorem C4_listChannels_complete (σ : Nat → Tid) (c : Client κ)
    (all : List (Option (Channel κ)))
    (pages : List (alertChannelsResponse κ))
    (hdistinct : ((all.filterMap fun x => x).map fun ch => ch.ID).Nodup)
    (hcut : (pages.map fun p => p.Channels).flatten = all)
    (h : c.GetPages "/alerts_channels.json" none = (pages, none)) :
    ∃ R, ListChannels σ c = some (.ret (some R) none) ∧ R = all ∧
      R.length = all.length ∧
      (∀ ch, some ch ∈ all →
        ((R.filterMap fun x => x).map fun x => x.ID).count ch.ID = 1) ∧
      (∀ (σ' : Nat → Tid) (c' : Client κ) (pages' : List (alertChannelsResponse κ)),
        (pages'.map fun p => p.Channels).flatten = all →
        c'.GetPages "/alerts_channels.json" none = (pages', none) →
        ListChannels σ' c' = some (.ret (some R) none)) := by
  refine ⟨all, ?_, rfl, rfl, ?_, ?_⟩
  · rw [listChannels_ok σ c pages h, pagesChannels_eq_flatten, hcut]
  · intro ch hch
    refine List.count_eq_one_of_mem hdistinct ?_
    simp only [List.mem_map, List.mem_filterMap]
    exact ⟨ch, ⟨some ch, hch, rfl⟩, rfl⟩
  · intro σ' c' pages' hcut' h'
    rw [listChannels_ok σ' c' pages' h', pagesChannels_eq_flatten, hcut']

theorem C4_listChannels_complete_witness :
    ∃ R, ListChannels alternate
        (sampleClient [[samplePtr 1 "a"], [], [samplePtr 2 "b", samplePtr 3 "c"]] none [])
        = some (.ret (some R) none) ∧
      R = [samplePtr 1 "a", samplePtr 2 "b", samplePtr 3 "c"] ∧
      R.length = [samplePtr 1 "a", samplePtr 2 "b", samplePtr 3 "c"].length ∧
      (∀ ch, some ch ∈ [samplePtr 1 "a", samplePtr 2 "b", samplePtr 3 "c"] →
        ((R.filterMap fun x => x).map fun x => x.ID).count ch.ID = 1) ∧
      (∀ (σ' : Nat → Tid) (c' : Client Unit) (pages' : List (alertChannelsResponse Unit)),
        (pages'.map fun p => p.Channels).flatten
          = [samplePtr 1 "a", samplePtr 2 "b", samplePtr 3 "c"] →
        c'.GetPages "/alerts_channels.json" none = (pages', none) →
        ListChannels σ' c' = some (.ret (some R) none)) :=
  C4_listChannels_complete alternate
    (sampleClient [[samplePtr 1 "a"], [], [samplePtr 2 "b", samplePtr 3 "c"]] none [])
    [samplePtr 1 "a", samplePtr 2 "b", samplePtr 3 "c"]
    [⟨[samplePtr 1 "a"]⟩, ⟨[]⟩, ⟨[samplePtr 2 "b", samplePtr 3 "c"]⟩]
    (by decide) (by decide) rfl

/-- C5: `CreateChannel` issues exactly one request, a `Post` to
`/alerts_channels.json` whose body holds the submitted channel unchanged under
`Channel`.  If the `Post` fails with `e` it returns nil and `e`.  If the `Post`
succeeds with a non-empty channel list it returns the first entry of the list
and a nil error, whatever follows in the list. -/
theorem C5_createChannel (c : Client κ) (channel : Channel κ) :
    (CreateChannel c channel).2 = [Call.Post "/alerts_channels.json" none { Channel := channel }] ∧
    (∀ resp e, c.Post "/alerts_channels.json" none { Channel := channel } = (resp, some e) →
      (CreateChannel c channel).1 = .ret none (some e)) ∧
    (∀ first rest,
      c.Post "/alerts_channels.json" none { Channel := channel } = ({ Channels := first :: rest }, none) →
      (CreateChannel c channel).1 = .ret first none) := by
  refine ⟨?_, ?_, ?_⟩
  · simp only [CreateChannel]
    split <;> [rfl; (split <;> rfl)]
  · intro resp e h
    simp [CreateChannel, h]
  · intro first rest h
    simp [CreateChannel, h]

theorem C5_createChannel_witness :
    (CreateChannel
        (sampleClient [] none [samplePtr 42 "test-channel", samplePtr 43 "other"])
        { ID := 0, Name := "test-channel", Typ := "email", Configuration := (),
          Links := { PolicyIDs := [] } }).1
      = .ret (some (sampleChannel 42 "test-channel")) none ∧
    (CreateChannel (failingClient (.Other "boom")) (sampleChannel 0 "test-channel")).1
      = .ret none (some (.Other "boom")) :=
  ⟨(C5_createChannel
      (sampleClient [] none [samplePtr 42 "test-channel", samplePtr 43 "other"])
      { ID := 0, Name := "test-channel", Typ := "email", Configuration := (),
        Links := { PolicyIDs := [] } }).2.2 _ _ rfl,
   by decide⟩

/-- C6 (amended): when the `Post` succeeds with an empty channel list,
`CreateChannel` returns no `(channel, error)` pair at all: indexing element 0
raises Go's run-time panic `index out of range [0] with length 0`, which is not
a returned error.  When the list of a successful response has at least one
entry, the index does not fail and that entry is returned with a nil error,
unchecked: a nil first entry is returned as a nil channel with a nil error. -/
theorem C6_createChannel_index (c : Client κ) (channel : Channel κ)
    (resp : alertChannelsResponse κ)
    (h : c.Post "/alerts_channels.json" none { Channel := channel } = (resp, none)) :
    (resp.Channels = [] →
      (CreateChannel c channel).1 = .panic "runtime error: index out of range [0] with length 0" ∧
      ∀ v err, (CreateChannel c channel).1 ≠ .ret v err) ∧
    (resp.Channels ≠ [] →
      (∀ msg, (CreateChannel c channel).1 ≠ .panic msg) ∧
      ∃ first, resp.Channels.head? = some first ∧
        (CreateChannel c channel).1 = .ret first none) ∧
    (∀ rest, resp.Channels = none :: rest → (CreateChannel c channel).1 = .ret none none) := by
  obtain ⟨chs⟩ := resp
  cases chs with
  | nil => simp [CreateChannel, h]
  | cons first rest =>
    refine ⟨by simp, fun _ => ⟨by simp [CreateChannel, h], first, rfl, by simp [CreateChannel, h]⟩, ?_⟩
    intro rest' hr
    simp only [List.cons.injEq] at hr
    obtain ⟨rfl, -⟩ := hr
    simp [CreateChannel, h]

theorem C6_createChannel_index_witness :
    (sampleClient [] none []).Post "/alerts_channels.json" none { Channel := sampleChannel 0 "n" }
      = ({ Channels := [] }, none) ∧
    (CreateChannel (sampleClient [] none []) (sampleChannel 0 "n")).1
      = .panic "runtime error: index out of range [0] with length 0" :=
  ⟨rfl, ((C6_createChannel_index (sampleClient [] none []) (sampleChannel 0 "n")
    { Channels := [] } rfl).1 rfl).1⟩

/-- Counterexample to C6 read as a returned error on every envelope without a
channel.  On a successful `Post` whose list is `[nil]`, an envelope holding no
channel, `CreateChannel` returns a nil channel with a nil
error.  On a successful `Post` whose list is empty, it returns no error value
at all: the outcome is a run-time panic. -/
theorem C6_createChannel_counterexample :
    ((sampleClient [] none [none]).Post "/alerts_channels.json" none
        { Channel := sampleChannel 0 "n" } = ({ Channels := [none] }, none) ∧
      (CreateChannel (sampleClient [] none [none]) (sampleChannel 0 "n")).1 = .ret none none) ∧
    ((sampleClient [] none []).Post "/alerts_channels.json" none
        { Channel := sampleChannel 0 "n" } = ({ Channels := [] }, none) ∧
      (CreateChannel (sampleClient [] none []) (sampleChannel 0 "n")).1
        = .panic "runtime error: index out of range [0] with length 0" ∧
      ¬ ∃ v e, (CreateChannel (sampleClient [] none []) (sampleChannel 0 "n")).1
        = .ret v (some e)) := by
  refine ⟨⟨rfl, by decide⟩, rfl, by decide, ?_⟩
  rintro ⟨v, e, hv⟩
  have hp : (CreateChannel (sampleClient [] none []) (sampleChannel 0 "n")).1
      = .panic "runtime error: index out of range [0] with length 0" := by decide
  rw [hp] at hv
  simp at hv

/-- C7: `DeleteChannel id` issues exactly one request, a `Delete` to
`/alerts_channels/<id in decimal>.json`.  If the request fails with `e` it
returns nil and `e`; if it succeeds it returns, with a nil error, the channel
of the response envelope, unchanged.  The rendering of `id` is a minus sign
when `id` is negative, followed by decimal digits whose value is `|id|`. -/
theorem C7_deleteChannel (c : Client κ) (id : Int) :
    (DeleteChannel c id).2
      = [Call.Delete ("/alerts_channels/" ++ toString id ++ ".json") none] ∧
    (∀ resp e, c.Delete ("/alerts_channels/" ++ toString id ++ ".json") none = (resp, some e) →
      (DeleteChannel c id).1 = .ret none (some e)) ∧
    (∀ resp, c.Delete ("/alerts_channels/" ++ toString id ++ ".json") none = (resp, none) →
      (DeleteChannel c id).1 = .ret (some resp.Channel) none) ∧
    (∃ ds : List Char, toString id = (if id < 0 then "-" else "") ++ String.mk ds ∧
      decimalValue ds = id.natAbs ∧ ∀ ch ∈ ds, ch.isDigit = true) := by
  refine ⟨?_, ?_, ?_, toString_int_decimal id⟩
  · simp only [DeleteChannel]
    split <;> rfl
  · intro resp e h
    simp [DeleteChannel, h]
  · intro resp h
    simp [DeleteChannel, h]

theorem C7_deleteChannel_witness :
    DeleteChannel (sampleClient [] none []) 7
      = (.ret (some { ID := 7, Name := "x", Typ := "email", Configuration := (),
                      Links := { PolicyIDs := [] } }) none,
         [Call.Delete "/alerts_channels/7.json" none]) ∧
    (DeleteChannel (failingClient (.NotFound "gone")) (-12)).1 = .ret none (some (.NotFound "gone")) ∧
    (DeleteChannel (failingClient (.NotFound "gone")) (-12)).2
      = [Call.Delete "/alerts_channels/-12.json" none] :=
  ⟨by decide, (C7_deleteChannel (failingClient (.NotFound "gone")) (-12)).2.1 _ _ rfl, by decide⟩

/-- C8, on the error path: whenever `GetPages` returns an error `e`,
`ListChannels` returns `(nil, e)` under every schedule while `respChan` is
still open and has never been closed, the consumer is still inside its `range`
loop and the `WaitGroup` counter is still 1; and however the consumer runs on
afterwards, the channel stays open and the consumer never finishes. -/
theorem C8_error_path_leaves_respChan_open (σ : Nat → Tid) (c : Client κ)
    (pages : List (alertChannelsResponse κ)) (e : Error)
    (h : c.GetPages "/alerts_channels.json" none = (pages, some e)) :
    ∃ s, ListChannelsFinal σ c = some s ∧ s.mpc = .done (.ret none (some e)) ∧
      s.closed = false ∧ s.closes = 0 ∧ s.cpc.inLoop = true ∧ s.wg = 1 ∧
      ∀ s', Reach s s' → s'.closed = false ∧ s'.closes = 0 ∧ s'.cpc ≠ .finished := by
  obtain ⟨s, hs, hinv, hd⟩ := listChannelsFinal_spec σ c
  rw [h] at hinv
  have key : ∀ s' : State κ, Inv pages (some e) s' → s'.isDone = true →
      s'.mpc = .done (.ret none (some e)) ∧ s'.closed = false ∧ s'.closes = 0 ∧
        s'.cpc.inLoop = true ∧ s'.wg = 1 := by
    intro s' hinv' hd'
    obtain ⟨mpc, cpc, buf, closed, closes, wg, acc, out⟩ := s'
    cases mpc <;> simp [State.isDone] at hd'
    simp only [Inv] at hinv'
    simp [hinv'.1, hinv'.2.1, hinv'.2.2.1, hinv'.2.2.2.1, hinv'.2.2.2.2.2]
  obtain ⟨k1, k2, k3, k4, k5⟩ := key s hinv hd
  refine ⟨s, hs, k1, k2, k3, k4, k5, ?_⟩
  intro s' hr
  have hinv' := inv_reach hinv hr
  obtain ⟨mpc, cpc, buf, closed, closes, wg, acc, out⟩ := s'
  cases mpc with
  | getPages l e' =>
    simp only [Inv] at hinv'
    obtain ⟨-, h2, h3, -, -, -, h7, -⟩ := hinv'
    refine ⟨h2, h3, ?_⟩
    rintro rfl
    simp [ConsPC.inLoop] at h7
  | close => simp [Inv] at hinv'
  | wait => simp [Inv] at hinv'
  | print => simp [Inv] at hinv'
  | done r =>
    simp only [Inv] at hinv'
    obtain ⟨-, h2, h3, -, -, h7⟩ := hinv'
    refine ⟨h2, h3, ?_⟩
    rintro rfl
    simp [ConsPC.inLoop] at h7

theorem C8_error_path_leaves_respChan_open_witness :
    (failingClient (.Other "boom")).GetPages "/alerts_channels.json" none
      = ([], some (.Other "boom")) ∧
    ListChannelsFinal mainFirst (failingClient (.Other "boom"))
      = some { mpc := .done (.ret none (some (.Other "boom"))), cpc := .recv, respChan := [],
               closed := false, closes := 0, wg := 1, alertChannels := [], stdout := "" } ∧
    ∃ s, ListChannelsFinal mainFirst (failingClient (.Other "boom")) = some s ∧
      s.mpc = .done (.ret none (some (.Other "boom"))) ∧
      s.closed = false ∧ s.closes = 0 ∧ s.cpc.inLoop = true ∧ s.wg = 1 ∧
      ∀ s', Reach s s' → s'.closed = false ∧ s'.closes = 0 ∧ s'.cpc ≠ .finished :=
  ⟨rfl, by decide,
   C8_error_path_leaves_respChan_open mainFirst (failingClient (.Other "boom")) [] _ rfl⟩

/-- C9: when `GetPages` pushes no page and returns no error, `ListChannels`
returns, under every schedule, a nil error and the empty, non-nil collection. -/
theorem C9_listChannels_empty (σ : Nat → Tid) (c : Client κ)
    (h : c.GetPages "/alerts_channels.json" none = ([], none)) :
    ListChannels σ c = some (.ret (some []) none) ∧
    ListChannels σ c ≠ some (.ret none none) ∧
    ∃ L, ListChannels σ c = some (.ret (some L) none) ∧ L.length = 0 := by
  have h0 := listChannels_ok σ c [] h
  simp only [pagesChannels_nil] at h0
  exact ⟨h0, by simp [h0], [], h0, rfl⟩

theorem C9_listChannels_empty_witness :
    (sampleClient [] none []).GetPages "/alerts_channels.json" none = ([], none) ∧
    ListChannels alternate (sampleClient [] none []) = some (.ret (some []) none) :=
  ⟨rfl, (C9_listChannels_empty alternate (sampleClient [] none []) rfl).1⟩

/-- C10: let `GetPages` push `pages` and return no error.  In every interleaving
of the two goroutines, whenever the caller is at the `Printf` that first reads
the collection, or has returned, `respChan` has been closed (once), the consumer
has finished after its `wg.Done`, the channel is drained and the collection
holds the channels of all the pages; the value returned is that collection;
under every schedule the call does reach that return; and no step of the caller
changes the collection. -/
theorem C10_return_after_close_and_drain (c : Client κ)
    (pages : List (alertChannelsResponse κ))
    (h : c.GetPages "/alerts_channels.json" none = (pages, none)) :
    (∀ s, Reach (State.init pages none) s → (s.mpc = .print ∨ ∃ r, s.mpc = .done r) →
      s.closed = true ∧ s.closes = 1 ∧ s.cpc = .finished ∧ s.wg = 0 ∧ s.respChan = [] ∧
      s.alertChannels = (pages.map fun p => p.Channels).flatten) ∧
    (∀ s r, Reach (State.init pages none) s → s.mpc = .done r →
      r = .ret (some s.alertChannels) none) ∧
    (∀ σ : Nat → Tid, ∃ s, ListChannelsFinal σ c = some s ∧
      Reach (State.init pages none) s ∧
      s.mpc = .done (.ret (some (pages.map fun p => p.Channels).flatten) none)) ∧
    (∀ s s' : State κ, stepMain s = some s' → s'.alertChannels = s.alertChannels) := by
  have key : ∀ s : State κ, Inv pages none s → (s.mpc = .print ∨ ∃ r, s.mpc = .done r) →
      s.closed = true ∧ s.closes = 1 ∧ s.cpc = .finished ∧ s.wg = 0 ∧ s.respChan = [] ∧
      s.alertChannels = pagesChannels pages ∧
      ∀ r, s.mpc = .done r → r = .ret (some (pagesChannels pages)) none := by
    intro s hinv hpc
    obtain ⟨mpc, cpc, buf, closed, closes, wg, acc, out⟩ := s
    cases mpc with
    | getPages l e => simp at hpc
    | close => simp at hpc
    | wait => simp at hpc
    | print =>
      simp only [Inv] at hinv
      obtain ⟨-, h2, h3, -, h5, h6, h7, h8⟩ := hinv
      exact ⟨h2, h3, h5, h6, h7, h8, by simp⟩
    | done r =>
      simp only [Inv] at hinv
      obtain ⟨h1, h2, h3, h4, h5, h6, h7, -⟩ := hinv
      exact ⟨h2, h3, h4, h5, h6, h7, by simp [h1]⟩
  refine ⟨?_, ?_, ?_, fun s s' hs => stepMain_alertChannels hs⟩
  · intro s hr hpc
    obtain ⟨k1, k2, k3, k4, k5, k6, -⟩ := key s (inv_reach (inv_init pages none) hr) hpc
    exact ⟨k1, k2, k3, k4, k5, by rw [k6, pagesChannels_eq_flatten]⟩
  · intro s r hr hpc
    obtain ⟨-, -, -, -, -, k6, k7⟩ := key s (inv_reach (inv_init pages none) hr) (Or.inr ⟨r, hpc⟩)
    rw [k7 r hpc, k6]
  · intro σ
    obtain ⟨s, hs, hinv, hd⟩ := listChannelsFinal_spec σ c
    have hr := listChannelsFinal_reach σ c s hs
    rw [h] at hinv hr
    refine ⟨s, hs, hr, ?_⟩
    obtain ⟨mpc, cpc, buf, closed, closes, wg, acc, out⟩ := s
    cases mpc <;> simp [State.isDone] at hd
    simp only [Inv] at hinv
    simp [hinv.1, pagesChannels_eq_flatten]

theorem C10_return_after_close_and_drain_witness :
    (sampleClient [[samplePtr 1 "a"], [samplePtr 2 "b"]] none []).GetPages
        "/alerts_channels.json" none
      = ([⟨[samplePtr 1 "a"]⟩, ⟨[samplePtr 2 "b"]⟩], none) ∧
    ListChannelsFinal mainFirst (sampleClient [[samplePtr 1 "a"], [samplePtr 2 "b"]] none [])
      = some { mpc := .done (.ret (some [samplePtr 1 "a", samplePtr 2 "b"]) none),
               cpc := .finished, respChan := [], closed := true, closes := 1, wg := 0,
               alertChannels := [samplePtr 1 "a", samplePtr 2 "b"],
               stdout := "Number: 2" } ∧
    ∀ s r, Reach (State.init [⟨[samplePtr 1 "a"]⟩, ⟨[samplePtr 2 "b"]⟩] none) s →
      s.mpc = .done r → r = .ret (some s.alertChannels) none :=
  ⟨rfl, by decide,
   (C10_return_after_close_and_drain
      (sampleClient [[samplePtr 1 "a"], [samplePtr 2 "b"]] none [])
      [⟨[samplePtr 1 "a"]⟩, ⟨[samplePtr 2 "b"]⟩] rfl).2.1⟩

end Alerts
